import Mathlib

/-!
Verification of the rscil metadata decoder (Lush repository).

This file shallowly embeds the Rust functions of `src/rscil/src/metadata/`
(kind.rs, index.rs, decode_context.rs, streams.rs, headers.rs, tables.rs,
image.rs, parser.rs, cil.rs, flags.rs) as executable Lean definitions and
proves or refutes the specification claims about them.

Conventions of the embedding:
* machine integers (`u8`, `u16`, `u32`) become `Nat`; reductions modulo
  `2 ^ w` are written explicitly exactly where the Rust code can overflow;
* `Result`/panics become `Except`/`Option`; each Rust `panic!`, failed
  `assert!` or debug-mode arithmetic overflow is an explicit error value;
* byte buffers become `List Nat`, reads return the value together with the
  unread remainder or the number of bytes consumed;
* `HashMap` becomes an association list (insertion order; lookup by key).

Definitions whose doc comment begins with `Follows the spec` or
`Modelled from the spec` are written from the specification text
(for comparison against the code, or because the corresponding function is
referenced but not present under `src/`); every other definition is a direct
translation of the Rust source named in its doc comment.
-/

/-- `TableKind` from kind.rs: the closed set of metadata table kinds. -/
inductive TableKind where
  | assembly
  | assemblyOS
  | assemblyProcessor
  | assemblyRef
  | assemblyRefOS
  | assemblyRefProcessor
  | classLayout
  | constant
  | customAttribute
  | declSecurity
  | eventMap
  | event
  | exportedType
  | field
  | fieldLayout
  | fieldMarshal
  | fieldRVA
  | file
  | genericParam
  | genericParamConstraint
  | implMap
  | interfaceImpl
  | manifestResource
  | memberRef
  | methodDef
  | methodImpl
  | methodSemantics
  | methodSpec
  | module
  | moduleRef
  | nestedClass
  | param
  | property
  | propertyMap
  | standAloneSig
  | typeDef
  | typeRef
  | typeSpec
  deriving DecidableEq

/-- `TableKind::from_u32` from kind.rs: tag value to table kind (`None` for an
unassigned tag). -/
def TableKind.from_u32 (index : Nat) : Option TableKind :=
  match index with
  | 0x20 => some TableKind.assembly
  | 0x22 => some TableKind.assemblyOS
  | 0x21 => some TableKind.assemblyProcessor
  | 0x23 => some TableKind.assemblyRef
  | 0x25 => some TableKind.assemblyRefOS
  | 0x24 => some TableKind.assemblyRefProcessor
  | 0x0f => some TableKind.classLayout
  | 0x0b => some TableKind.constant
  | 0x0c => some TableKind.customAttribute
  | 0x0e => some TableKind.declSecurity
  | 0x12 => some TableKind.eventMap
  | 0x14 => some TableKind.event
  | 0x27 => some TableKind.exportedType
  | 0x04 => some TableKind.field
  | 0x10 => some TableKind.fieldLayout
  | 0x0d => some TableKind.fieldMarshal
  | 0x1d => some TableKind.fieldRVA
  | 0x26 => some TableKind.file
  | 0x2a => some TableKind.genericParam
  | 0x2c => some TableKind.genericParamConstraint
  | 0x1c => some TableKind.implMap
  | 0x09 => some TableKind.interfaceImpl
  | 0x28 => some TableKind.manifestResource
  | 0x0a => some TableKind.memberRef
  | 0x06 => some TableKind.methodDef
  | 0x19 => some TableKind.methodImpl
  | 0x18 => some TableKind.methodSemantics
  | 0x2b => some TableKind.methodSpec
  | 0x00 => some TableKind.module
  | 0x1a => some TableKind.moduleRef
  | 0x29 => some TableKind.nestedClass
  | 0x08 => some TableKind.param
  | 0x17 => some TableKind.property
  | 0x15 => some TableKind.propertyMap
  | 0x11 => some TableKind.standAloneSig
  | 0x02 => some TableKind.typeDef
  | 0x01 => some TableKind.typeRef
  | 0x1b => some TableKind.typeSpec
  | _ => none

/-- `TableKind::to_u32` from kind.rs: table kind to its tag value. -/
def TableKind.to_u32 : TableKind → Nat
  | TableKind.assembly => 0x20
  | TableKind.assemblyOS => 0x22
  | TableKind.assemblyProcessor => 0x21
  | TableKind.assemblyRef => 0x23
  | TableKind.assemblyRefOS => 0x25
  | TableKind.assemblyRefProcessor => 0x24
  | TableKind.classLayout => 0x0f
  | TableKind.constant => 0x0b
  | TableKind.customAttribute => 0x0c
  | TableKind.declSecurity => 0x0e
  | TableKind.eventMap => 0x12
  | TableKind.event => 0x14
  | TableKind.exportedType => 0x27
  | TableKind.field => 0x04
  | TableKind.fieldLayout => 0x10
  | TableKind.fieldMarshal => 0x0d
  | TableKind.fieldRVA => 0x1d
  | TableKind.file => 0x26
  | TableKind.genericParam => 0x2a
  | TableKind.genericParamConstraint => 0x2c
  | TableKind.implMap => 0x1c
  | TableKind.interfaceImpl => 0x09
  | TableKind.manifestResource => 0x28
  | TableKind.memberRef => 0x0a
  | TableKind.methodDef => 0x06
  | TableKind.methodImpl => 0x19
  | TableKind.methodSemantics => 0x18
  | TableKind.methodSpec => 0x2b
  | TableKind.module => 0x00
  | TableKind.moduleRef => 0x1a
  | TableKind.nestedClass => 0x29
  | TableKind.param => 0x08
  | TableKind.property => 0x17
  | TableKind.propertyMap => 0x15
  | TableKind.standAloneSig => 0x11
  | TableKind.typeDef => 0x02
  | TableKind.typeRef => 0x01
  | TableKind.typeSpec => 0x1b

/-- `CodedIndexTag` from index.rs: the thirteen coded-index families. -/
inductive CodedIndexTag where
  | typeDefOrRef
  | hasConstant
  | hasCustomAttribute
  | hasFieldMarshal
  | hasDeclSecurity
  | memberRefParent
  | hasSemantics
  | methodDefOrRef
  | memberForwarded
  | implementation
  | customAttributeType
  | resolutionScope
  | typeOrMethodDef
  deriving DecidableEq

/-- `CodedIndexTag::get_tag_size` from index.rs: number of tag bits of the
family. -/
def CodedIndexTag.get_tag_size : CodedIndexTag → Nat
  | CodedIndexTag.typeDefOrRef => 2
  | CodedIndexTag.hasConstant => 2
  | CodedIndexTag.hasCustomAttribute => 5
  | CodedIndexTag.hasFieldMarshal => 1
  | CodedIndexTag.hasDeclSecurity => 2
  | CodedIndexTag.memberRefParent => 3
  | CodedIndexTag.hasSemantics => 1
  | CodedIndexTag.methodDefOrRef => 1
  | CodedIndexTag.memberForwarded => 1
  | CodedIndexTag.implementation => 2
  | CodedIndexTag.customAttributeType => 3
  | CodedIndexTag.resolutionScope => 2
  | CodedIndexTag.typeOrMethodDef => 1

/-- The `match` of `CodedIndexTag::get_table_kind` from index.rs, applied to
the already-masked tag value `d`; a Rust `panic!` on an unassigned tag value
is `none`. -/
def CodedIndexTag.tag_match (tag : CodedIndexTag) (d : Nat) : Option TableKind :=
  match tag with
  | CodedIndexTag.typeDefOrRef =>
    match d with
    | 0 => some TableKind.typeDef
    | 1 => some TableKind.typeRef
    | 2 => some TableKind.typeSpec
    | _ => none
  | CodedIndexTag.hasConstant =>
    match d with
    | 0 => some TableKind.field
    | 1 => some TableKind.param
    | 2 => some TableKind.property
    | _ => none
  | CodedIndexTag.hasCustomAttribute =>
    match d with
    | 0 => some TableKind.methodDef
    | 1 => some TableKind.field
    | 2 => some TableKind.typeRef
    | 3 => some TableKind.typeDef
    | 4 => some TableKind.param
    | 5 => some TableKind.interfaceImpl
    | 6 => some TableKind.memberRef
    | 7 => some TableKind.module
    | 9 => some TableKind.property
    | 10 => some TableKind.event
    | 11 => some TableKind.standAloneSig
    | 12 => some TableKind.moduleRef
    | 13 => some TableKind.typeSpec
    | 14 => some TableKind.assembly
    | 15 => some TableKind.assemblyRef
    | 16 => some TableKind.file
    | 17 => some TableKind.exportedType
    | 18 => some TableKind.manifestResource
    | 19 => some TableKind.genericParam
    | 20 => some TableKind.genericParamConstraint
    | 21 => some TableKind.methodSpec
    | _ => none
  | CodedIndexTag.hasFieldMarshal =>
    match d with
    | 0 => some TableKind.field
    | 1 => some TableKind.param
    | _ => none
  | CodedIndexTag.hasDeclSecurity =>
    match d with
    | 0 => some TableKind.typeDef
    | 1 => some TableKind.methodDef
    | 2 => some TableKind.assembly
    | _ => none
  | CodedIndexTag.memberRefParent =>
    match d with
    | 0 => some TableKind.typeDef
    | 1 => some TableKind.typeRef
    | 2 => some TableKind.moduleRef
    | 3 => some TableKind.methodDef
    | 4 => some TableKind.typeSpec
    | _ => none
  | CodedIndexTag.hasSemantics =>
    match d with
    | 0 => some TableKind.event
    | 1 => some TableKind.property
    | _ => none
  | CodedIndexTag.methodDefOrRef =>
    match d with
    | 0 => some TableKind.methodDef
    | 1 => some TableKind.memberRef
    | _ => none
  | CodedIndexTag.memberForwarded =>
    match d with
    | 0 => some TableKind.field
    | 1 => some TableKind.methodDef
    | _ => none
  | CodedIndexTag.implementation =>
    match d with
    | 0 => some TableKind.file
    | 1 => some TableKind.assemblyRef
    | 2 => some TableKind.exportedType
    | _ => none
  | CodedIndexTag.customAttributeType =>
    match d with
    | 2 => some TableKind.methodDef
    | 3 => some TableKind.memberRef
    | _ => none
  | CodedIndexTag.resolutionScope =>
    match d with
    | 0 => some TableKind.module
    | 1 => some TableKind.moduleRef
    | 2 => some TableKind.assemblyRef
    | 3 => some TableKind.typeRef
    | _ => none
  | CodedIndexTag.typeOrMethodDef =>
    match d with
    | 0 => some TableKind.typeDef
    | 1 => some TableKind.methodDef
    | _ => none

/-- `CodedIndexTag::get_table_kind` from index.rs: first masks the data byte
with `0xFF >> (8 - tag_size)` ("Clean data with tag size"), then maps the tag
value to the target table. -/
def CodedIndexTag.get_table_kind (tag : CodedIndexTag) (data : Nat) : Option TableKind :=
  tag.tag_match (data &&& (0xFF >>> (8 - tag.get_tag_size)))

/-- `CodedIndex` from index.rs: a decoded coded index. -/
structure CodedIndex where
  table : TableKind
  index : Nat
  deriving DecidableEq

/-- `CodedIndexTag::read` from index.rs, after the raw 2- or 4-byte
little-endian value `index` has been read: `data = index >> tag_size`,
`table = get_table_kind((index & 0xff) as u8)`. The `panic!` on an
unassigned tag value is `none`. -/
def CodedIndexTag.read (tag : CodedIndexTag) (index : Nat) : Option CodedIndex :=
  (tag.get_table_kind (index &&& 0xFF)).map (fun t => CodedIndex.mk t (index >>> tag.get_tag_size))

/-- Follows the spec (section 4.6): the tag-to-table mapping of each
coded-index family, applied to the low tag bits; values outside the mapping
are fatal (`none`). -/
def spec_tag_to_table (tag : CodedIndexTag) (m : Nat) : Option TableKind :=
  match tag with
  | CodedIndexTag.typeDefOrRef =>
    match m with
    | 0 => some TableKind.typeDef
    | 1 => some TableKind.typeRef
    | 2 => some TableKind.typeSpec
    | _ => none
  | CodedIndexTag.hasConstant =>
    match m with
    | 0 => some TableKind.field
    | 1 => some TableKind.param
    | 2 => some TableKind.property
    | _ => none
  | CodedIndexTag.hasCustomAttribute =>
    match m with
    | 0 => some TableKind.methodDef
    | 1 => some TableKind.field
    | 2 => some TableKind.typeRef
    | 3 => some TableKind.typeDef
    | 4 => some TableKind.param
    | 5 => some TableKind.interfaceImpl
    | 6 => some TableKind.memberRef
    | 7 => some TableKind.module
    | 9 => some TableKind.property
    | 10 => some TableKind.event
    | 11 => some TableKind.standAloneSig
    | 12 => some TableKind.moduleRef
    | 13 => some TableKind.typeSpec
    | 14 => some TableKind.assembly
    | 15 => some TableKind.assemblyRef
    | 16 => some TableKind.file
    | 17 => some TableKind.exportedType
    | 18 => some TableKind.manifestResource
    | 19 => some TableKind.genericParam
    | 20 => some TableKind.genericParamConstraint
    | 21 => some TableKind.methodSpec
    | _ => none
  | CodedIndexTag.hasFieldMarshal =>
    match m with
    | 0 => some TableKind.field
    | 1 => some TableKind.param
    | _ => none
  | CodedIndexTag.hasDeclSecurity =>
    match m with
    | 0 => some TableKind.typeDef
    | 1 => some TableKind.methodDef
    | 2 => some TableKind.assembly
    | _ => none
  | CodedIndexTag.memberRefParent =>
    match m with
    | 0 => some TableKind.typeDef
    | 1 => some TableKind.typeRef
    | 2 => some TableKind.moduleRef
    | 3 => some TableKind.methodDef
    | 4 => some TableKind.typeSpec
    | _ => none
  | CodedIndexTag.hasSemantics =>
    match m with
    | 0 => some TableKind.event
    | 1 => some TableKind.property
    | _ => none
  | CodedIndexTag.methodDefOrRef =>
    match m with
    | 0 => some TableKind.methodDef
    | 1 => some TableKind.memberRef
    | _ => none
  | CodedIndexTag.memberForwarded =>
    match m with
    | 0 => some TableKind.field
    | 1 => some TableKind.methodDef
    | _ => none
  | CodedIndexTag.implementation =>
    match m with
    | 0 => some TableKind.file
    | 1 => some TableKind.assemblyRef
    | 2 => some TableKind.exportedType
    | _ => none
  | CodedIndexTag.customAttributeType =>
    match m with
    | 2 => some TableKind.methodDef
    | 3 => some TableKind.memberRef
    | _ => none
  | CodedIndexTag.resolutionScope =>
    match m with
    | 0 => some TableKind.module
    | 1 => some TableKind.moduleRef
    | 2 => some TableKind.assemblyRef
    | 3 => some TableKind.typeRef
    | _ => none
  | CodedIndexTag.typeOrMethodDef =>
    match m with
    | 0 => some TableKind.typeDef
    | 1 => some TableKind.methodDef
    | _ => none

/-- `CodedIndexTag::is_big_index` from index.rs: the maximum candidate row
count is compared with `2u32.pow(16 - tag_bits)` using strict `>`. -/
def CodedIndexTag.is_big_index (tag : CodedIndexTag) (row_count : TableKind → Nat) : Bool :=
  match tag with
  | CodedIndexTag.typeDefOrRef =>
    decide ((row_count TableKind.typeDef).max
      ((row_count TableKind.typeRef).max (row_count TableKind.typeSpec)) > 2 ^ (16 - 2))
  | CodedIndexTag.hasConstant =>
    decide ((row_count TableKind.field).max
      ((row_count TableKind.param).max (row_count TableKind.property)) > 2 ^ (16 - 2))
  | CodedIndexTag.hasCustomAttribute =>
    decide ((row_count TableKind.methodDef).max
      ((row_count TableKind.field).max
      ((row_count TableKind.typeRef).max
      ((row_count TableKind.typeDef).max
      ((row_count TableKind.param).max
      ((row_count TableKind.interfaceImpl).max
      ((row_count TableKind.memberRef).max
      ((row_count TableKind.module).max
      ((row_count TableKind.property).max
      ((row_count TableKind.event).max
      ((row_count TableKind.standAloneSig).max
      ((row_count TableKind.moduleRef).max
      ((row_count TableKind.typeSpec).max
      ((row_count TableKind.assembly).max
      ((row_count TableKind.assemblyRef).max
      ((row_count TableKind.file).max
      ((row_count TableKind.exportedType).max
      ((row_count TableKind.manifestResource).max
      ((row_count TableKind.genericParam).max
      ((row_count TableKind.genericParamConstraint).max
        (row_count TableKind.methodSpec))))))))))))))))))))
      > 2 ^ (16 - 5))
  | CodedIndexTag.hasFieldMarshal =>
    decide ((row_count TableKind.field).max (row_count TableKind.param) > 2 ^ (16 - 1))
  | CodedIndexTag.hasDeclSecurity =>
    decide ((row_count TableKind.typeDef).max
      ((row_count TableKind.methodDef).max (row_count TableKind.assembly)) > 2 ^ (16 - 2))
  | CodedIndexTag.memberRefParent =>
    decide ((row_count TableKind.typeDef).max
      ((row_count TableKind.typeRef).max
      ((row_count TableKind.moduleRef).max
      ((row_count TableKind.methodDef).max (row_count TableKind.typeSpec)))) > 2 ^ (16 - 3))
  | CodedIndexTag.hasSemantics =>
    decide ((row_count TableKind.event).max (row_count TableKind.property) > 2 ^ (16 - 1))
  | CodedIndexTag.methodDefOrRef =>
    decide ((row_count TableKind.methodDef).max (row_count TableKind.memberRef) > 2 ^ (16 - 1))
  | CodedIndexTag.memberForwarded =>
    decide ((row_count TableKind.field).max (row_count TableKind.methodDef) > 2 ^ (16 - 1))
  | CodedIndexTag.implementation =>
    decide ((row_count TableKind.file).max
      ((row_count TableKind.assemblyRef).max (row_count TableKind.exportedType)) > 2 ^ (16 - 2))
  | CodedIndexTag.customAttributeType =>
    decide ((row_count TableKind.methodDef).max (row_count TableKind.memberRef) > 2 ^ (16 - 3))
  | CodedIndexTag.resolutionScope =>
    decide ((row_count TableKind.module).max
      ((row_count TableKind.moduleRef).max
      ((row_count TableKind.assemblyRef).max (row_count TableKind.typeRef))) > 2 ^ (16 - 2))
  | CodedIndexTag.typeOrMethodDef =>
    decide ((row_count TableKind.typeDef).max (row_count TableKind.methodDef) > 2 ^ (16 - 1))

/-- The loop body of `TableDecodeContext::compute_coded_index_sizes` from
decode_context.rs: the stored wire width of one coded-index family. -/
def compute_coded_index_size (tag : CodedIndexTag) (row_count : TableKind → Nat) : Nat :=
  if tag.is_big_index row_count then 4 else 2

/-- The row-count assignment exhibiting the width boundary: the TypeDef table
has exactly `2 ^ (16 - 2)` rows, every other table is empty. -/
def c2_row_count : TableKind → Nat :=
  fun k => if k = TableKind.typeDef then 2 ^ 14 else 0

/-- Errors of the blob-length reader in streams.rs. `truncated` is an I/O
error on a short buffer, `invalidBlobLength` is the explicit
`Invalid blob length` error, `shiftOverflowed` is the debug-mode Rust panic
`attempt to shift left with overflow` (shift amount of at least 32 on a
`u32`). -/
inductive BlobReadError where
  | truncated
  | invalidBlobLength
  | shiftOverflowed
  deriving DecidableEq

/-- Rust `u32` left shift `a << k` in a debug build: panics when the shift
amount is 32 or more, otherwise keeps the low 32 bits of the result. -/
def rust_shl_u32 (a k : Nat) : Except BlobReadError Nat :=
  if k < 32 then Except.ok ((a <<< k) % 2 ^ 32) else Except.error BlobReadError.shiftOverflowed

/-- `read_blob_length` from streams.rs. Rust parses `x << 8 + y` as
`x << (8 + y)` because `+` binds tighter than `<<`, so the translation keeps
that grouping: the two-byte arm computes `(first & 0x3F) << (8 + next)` and
the four-byte arm computes
`(((first & 0x1F) << (24 + x)) << (16 + y)) << (8 + z)`.
Returns the decoded length and the number of bytes consumed. -/
def read_blob_length (bytes : List Nat) : Except BlobReadError (Nat × Nat) :=
  match bytes with
  | [] => Except.error BlobReadError.truncated
  | first :: rest =>
    if first &&& 0x80 = 0 then
      Except.ok (first, 1)
    else if first &&& 0xC0 = 0x80 then
      match rest with
      | [] => Except.error BlobReadError.truncated
      | x :: _ =>
        match rust_shl_u32 (first &&& 0x3F) (8 + x) with
        | Except.ok length => Except.ok (length, 2)
        | Except.error e => Except.error e
    else if first &&& 0xE0 = 0xC0 then
      match rest with
      | x :: y :: z :: _ =>
        match rust_shl_u32 (first &&& 0x1F) (24 + x) with
        | Except.error e => Except.error e
        | Except.ok a =>
          match rust_shl_u32 a (16 + y) with
          | Except.error e => Except.error e
          | Except.ok b =>
            match rust_shl_u32 b (8 + z) with
            | Except.error e => Except.error e
            | Except.ok length => Except.ok (length, 4)
      | _ => Except.error BlobReadError.truncated
    else
      Except.error BlobReadError.invalidBlobLength

/-- Follows the spec (section 6, compressed integer): top bit 0 gives the low
7 bits on 1 byte; top bits `10` give the low 6 bits shifted left 8 OR the
next byte on 2 bytes; top bits `110` give the low 5 bits shifted left 24 OR
the next three bytes big-endian on 4 bytes. -/
def spec_blob_length (bytes : List Nat) : Option (Nat × Nat) :=
  match bytes with
  | [] => none
  | first :: rest =>
    if first &&& 0x80 = 0 then
      some (first &&& 0x7F, 1)
    else if first &&& 0xC0 = 0x80 then
      match rest with
      | x :: _ => some (((first &&& 0x3F) <<< 8) ||| x, 2)
      | _ => none
    else if first &&& 0xE0 = 0xC0 then
      match rest with
      | x :: y :: z :: _ =>
        some ((((first &&& 0x1F) <<< 24) ||| (x <<< 16)) ||| ((y <<< 8) ||| z), 4)
      | _ => none
    else
      none

/-- `BufRead::read_until(0, ..)` as used by streams.rs and headers.rs: the
bytes up to and including the first `0`, together with the unread remainder;
at end of input it returns everything read so far without a terminator. -/
def read_until_zero : List Nat → List Nat × List Nat
  | [] => ([], [])
  | b :: rest =>
    if b = 0 then ([b], rest)
    else
      let (entry, remaining) := read_until_zero rest
      (b :: entry, remaining)

/-- The `while count < header.size` loop of `StringStream::from` in
streams.rs: `count` is advanced by the bytes just read and the entry is then
inserted under the advanced `count`, so every key is the post-read cumulative
offset. Entries keep their terminator byte because `read_until` includes the
delimiter. The `fuel` argument only bounds the recursion; one entry consumes
at least one byte, so `bytes.length + 1` iterations are never exhausted (a
Rust iteration that reads zero bytes at end of input would re-insert the
empty entry under the same key forever). -/
def string_stream_loop (size : Nat) : Nat → List Nat → Nat → List (Nat × List Nat)
  | 0, _, _ => []
  | fuel + 1, bytes, count =>
    if count < size then
      match bytes with
      | [] => []
      | b :: rest =>
        let er := read_until_zero (b :: rest)
        (count + er.1.length, er.1) :: string_stream_loop size fuel er.2 (count + er.1.length)
    else []

/-- `StringStream::from` from streams.rs: the offset-to-entry map built by
the sequential scan of the Strings stream (as an association list in
insertion order). -/
def string_stream_from (size : Nat) (bytes : List Nat) : List (Nat × List Nat) :=
  string_stream_loop size (bytes.length + 1) bytes 0

/-- `StringStream::get` from streams.rs: lookup of a byte offset in the
map. -/
def string_stream_get (m : List (Nat × List Nat)) (index : Nat) : Option (List Nat) :=
  m.lookup index

/-- Little-endian `u32` read over a byte list: the value and the unread
remainder, `none` when fewer than four bytes remain. -/
def read_u32_le : List Nat → Option (Nat × List Nat)
  | b0 :: b1 :: b2 :: b3 :: rest =>
    some (b0 + b1 * 0x100 + b2 * 0x10000 + b3 * 0x1000000, rest)
  | _ => none

/-- `StreamHeader` from headers.rs (name kept as raw bytes). -/
structure StreamHeader where
  offset : Nat
  size : Nat
  name : List Nat
  deriving DecidableEq

/-- `StreamHeader::from` from headers.rs: reads the u32 offset and u32 size,
then the null-terminated name via `read_until(0, ..)`, then
`4 - (name.len() % 4)` padding bytes, then pops the terminator off the name.
Returns the header and the total number of bytes consumed. -/
def stream_header_from (bytes : List Nat) : Except BlobReadError (StreamHeader × Nat) :=
  match read_u32_le bytes with
  | none => Except.error BlobReadError.truncated
  | some (offset, rest1) =>
    match read_u32_le rest1 with
    | none => Except.error BlobReadError.truncated
    | some (size, rest2) =>
      let nr := read_until_zero rest2
      let padding := 4 - nr.1.length % 4
      if nr.2.length < padding then Except.error BlobReadError.truncated
      else Except.ok (StreamHeader.mk offset size nr.1.dropLast, 8 + nr.1.length + padding)

/-- Errors of the table readers in tables.rs; the byte stream running dry in
a row reader is `truncated`. No cardinality error exists in the source. -/
inductive TableReadError where
  | truncated
  deriving DecidableEq

/-- `read_single_row` from tables.rs, with the byte buffer abstracted to the
stream of rows the row reader would decode: `if row_count <= 0` return
`None`, otherwise decode one row and return `Some` of it; any rows beyond the
first are neither read nor rejected. -/
def read_single_row (row_count : Nat) (rows : List α) : Except TableReadError (Option α) :=
  if row_count ≤ 0 then Except.ok none
  else
    match rows with
    | [] => Except.error TableReadError.truncated
    | r :: _ => Except.ok (some r)

/-- The `TableKind::Module` arm of `Table::read` from tables.rs, with the
byte buffer abstracted as in `read_single_row`: `ModuleRow::read_from` is
called exactly once and `row_count` is ignored. -/
def table_read_module (row_count : Nat) (rows : List α) : Except TableReadError α :=
  match row_count, rows with
  | _, [] => Except.error TableReadError.truncated
  | _, r :: _ => Except.ok r

/-- The getter body generated by `define_getter` in image.rs for one table,
with the table's row vector as `rows` (the `cast_row!` of a well-kinded table
is the identity): `None` for ordinal 0, otherwise `rows.get((index - 1) as
usize)`. -/
def define_getter (rows : List α) (index : Nat) : Option α :=
  if index = 0 then none else rows.get? (index - 1)

/-- `SectionHeader` from section_header.rs, restricted to the three fields
`PeParser::get_address` reads (name, raw-data size, relocation and line
number fields, and characteristics are never consulted there). -/
structure SectionHeader where
  virtual_size : Nat
  virtual_address : Nat
  pointer_to_raw_data : Nat
  deriving DecidableEq

/-- Failures of `PeParser::get_address` from parser.rs: `rvaNotFound` is the
`RVA not found in any section` panic, `addOverflowed` is the debug-mode Rust
panic when `virtual_address + virtual_size` overflows `u32`. -/
inductive PeError where
  | rvaNotFound
  | addOverflowed
  deriving DecidableEq

/-- `PeParser::get_address` from parser.rs: scans the sections in order; for
each, `rva >= virtual_address` is tested first (`&&` short-circuits), then
`virtual_address + virtual_size` is computed on `u32` (a sum of `2 ^ 32` or
more panics in a debug build) and compared with `rva`; a match returns
`pointer_to_raw_data + (rva - virtual_address)`. -/
def get_address (sections : List SectionHeader) (rva : Nat) : Except PeError Nat :=
  match sections with
  | [] => Except.error PeError.rvaNotFound
  | s :: rest =>
    if s.virtual_address ≤ rva then
      if 2 ^ 32 ≤ s.virtual_address + s.virtual_size then
        Except.error PeError.addOverflowed
      else if rva < s.virtual_address + s.virtual_size then
        Except.ok (s.pointer_to_raw_data + (rva - s.virtual_address))
      else get_address rest rva
    else get_address rest rva

/-- Follows the spec (section 4.2): a section maps `rva` when
`virtual_address <= rva < virtual_address + virtual_size`. -/
def section_matches (rva : Nat) (s : SectionHeader) : Bool :=
  decide (s.virtual_address ≤ rva ∧ rva < s.virtual_address + s.virtual_size)

/-- The section whose `virtual_address + virtual_size` overflows `u32`:
it ends at address `2 ^ 32 + 1`. -/
def c8_section : SectionHeader :=
  SectionHeader.mk 2 (2 ^ 32 - 1) 0

/-- `MethodHeaderType::check_flag` from flags.rs: `value & flag == flag`. -/
def MethodHeaderType.check_flag (value flag : Nat) : Bool :=
  value &&& flag == flag

/-- `MethodHeaderType::is_tiny_format` from flags.rs:
`check_flag(COR_IL_METHOD_TINY_FORMAT)` with the flag value `0x2`. -/
def MethodHeaderType.is_tiny_format (value : Nat) : Bool :=
  MethodHeaderType.check_flag value 0x2

/-- `MethodHeaderType::is_fat_format` from flags.rs:
`check_flag(COR_IL_METHOD_FAT_FORMAT)` with the flag value `0x3`. -/
def MethodHeaderType.is_fat_format (value : Nat) : Bool :=
  MethodHeaderType.check_flag value 0x3

/-- `MethodBody` from cil.rs. The struct has no locals-signature field at
all; `body` starts out as the empty instruction vector. -/
structure MethodBody where
  body : List Nat
  max_stack : Nat
  code_size : Nat
  deriving DecidableEq

/-- `MethodBody::tiny` from cil.rs: `code_size = byte >> 2`, `max_stack = 8`,
empty body. -/
def MethodBody.tiny (byte : Nat) : MethodBody :=
  MethodBody.mk [] 8 (byte >>> 2)

/-- The three classifications of the first method-header byte. -/
inductive MethodHeaderKind where
  | tinyHeader
  | fatHeader
  | invalidHeader
  deriving DecidableEq

/-- Modelled from the spec: `PeParser::read_method_body`, the tiny/fat
dispatch on the first header byte, is called from image.rs but absent from
`src/`. Spec section 4.9: low 2 bits `0b10` give a Tiny header, low 2 bits
`0b11` give a Fat header, and section 7 makes low bits `0b00`/`0b01` the
fatal `InvalidMethodHeader`. -/
def classify_method_header (b : Nat) : MethodHeaderKind :=
  if b % 4 = 2 then MethodHeaderKind.tinyHeader
  else if b % 4 = 3 then MethodHeaderKind.fatHeader
  else MethodHeaderKind.invalidHeader

/-- `MetadataToken` from index.rs. -/
inductive MetadataToken where
  | userString (index : Nat)
  | table (table : TableKind) (index : Nat)
  deriving DecidableEq

/-- `MetadataToken::from_raw` from index.rs. The conversion
`TableKind::from(u8)` it calls is not defined under `src/`; modelled from the
spec ("high byte is a table tag") as the tag mapping `TableKind::from_u32` of
kind.rs, an unassigned tag (a Rust panic) giving `none`. -/
def MetadataToken.from_raw (raw : Nat) : Option MetadataToken :=
  let table := (raw >>> 24) % 2 ^ 8
  let index := raw &&& 0x00FFFFFF
  if table = 0x70 then some (MetadataToken.userString index)
  else (TableKind.from_u32 table).map (fun k => MetadataToken.table k index)

/-- `MetadataToken::to_raw` from index.rs. The conversion `u8::from(TableKind)`
it calls is not defined under `src/`; modelled from the spec as the tag
mapping `TableKind::to_u32` of kind.rs. -/
def MetadataToken.to_raw : MetadataToken → Nat
  | MetadataToken.userString index => (0x70 <<< 24) ||| index
  | MetadataToken.table k index => (k.to_u32 <<< 24) ||| index

theorem and255_mask (v k : Nat) (hk : k ≤ 8) :
    (v &&& 0xFF) &&& (0xFF >>> (8 - k)) = v % 2 ^ k := by
  have h1 : (0xFF : Nat) >>> (8 - k) = 2 ^ k - 1 := by
    interval_cases k <;> rfl
  have h2 : (0xFF : Nat) &&& (2 ^ k - 1) = 2 ^ k - 1 := by
    interval_cases k <;> rfl
  rw [h1, Nat.and_assoc, h2, Nat.and_pow_two_sub_one_eq_mod]

theorem tag_size_le_eight (tag : CodedIndexTag) : tag.get_tag_size ≤ 8 := by
  cases tag <;> decide

theorem tag_match_eq_spec (tag : CodedIndexTag) :
    ∀ m, m < 2 ^ tag.get_tag_size → tag.tag_match m = spec_tag_to_table tag m := by
  cases tag <;> decide

theorem get_table_kind_eq_spec (tag : CodedIndexTag) (v : Nat) :
    tag.get_table_kind (v &&& 0xFF) = spec_tag_to_table tag (v % 2 ^ tag.get_tag_size) := by
  rw [CodedIndexTag.get_table_kind, and255_mask v tag.get_tag_size (tag_size_le_eight tag)]
  exact tag_match_eq_spec tag _ (Nat.mod_lt v (Nat.two_pow_pos tag.get_tag_size))

theorem shiftLeft_lor_low (a b : Nat) (hb : b < 2 ^ 24) :
    (a <<< 24) ||| b = a <<< 24 + b := by
  apply Nat.eq_of_testBit_eq
  intro j
  rcases Nat.lt_or_ge j 24 with hj | hj
  · have hnot : ¬ j ≥ 24 := Nat.not_le.2 hj
    rw [Nat.testBit_lor, Nat.testBit_shiftLeft, Nat.shiftLeft_eq, Nat.mul_comm,
      Nat.testBit_mul_pow_two_add a hb j]
    simp [hnot, hj]
  · have hnot : ¬ j < 24 := Nat.not_lt.2 hj
    have hb2 : b.testBit j = false :=
      Nat.testBit_eq_false_of_lt (lt_of_lt_of_le hb (Nat.pow_le_pow_right (by norm_num) hj))
    rw [Nat.testBit_lor, Nat.testBit_shiftLeft, Nat.shiftLeft_eq, Nat.mul_comm,
      Nat.testBit_mul_pow_two_add a hb j]
    simp [hnot, hj, hb2]

theorem split24 (raw : Nat) : (raw >>> 24) <<< 24 ||| (raw % 2 ^ 24) = raw := by
  rw [shiftLeft_lor_low _ _ (Nat.mod_lt raw (Nat.two_pow_pos 24)),
    Nat.shiftLeft_eq, Nat.shiftRight_eq_div_pow]
  omega

theorem from_u32_to_u32 (t : Nat) (k : TableKind) (h : TableKind.from_u32 t = some k) :
    TableKind.to_u32 k = t := by
  unfold TableKind.from_u32 at h
  split at h
  all_goals first
    | exact Option.noConfusion h
    | (injection h with h2; subst h2; rfl)

/-- C1: the compressed blob-length decoder does not implement the spec's
packing. In `read_blob_length` the Rust expression `x << 8 + y` groups as
`x << (8 + y)`, so on `[0x80, 0x80]` and on `[0xC0, 0x00, 0x40, 0x00]` the
code shifts a `u32` by 136 and by 80 bits and panics (debug build) instead of
producing `0x0080` and `0x4000`; only the one-byte form `[0x03]` decodes as
specified. -/
theorem c1_blob_length_precedence_bug :
    read_blob_length [0x80, 0x80] = Except.error BlobReadError.shiftOverflowed
    ∧ spec_blob_length [0x80, 0x80] = some (0x80, 2)
    ∧ read_blob_length [0xC0, 0x00, 0x40, 0x00] = Except.error BlobReadError.shiftOverflowed
    ∧ spec_blob_length [0xC0, 0x00, 0x40, 0x00] = some (0x4000, 4)
    ∧ read_blob_length [0x03] = Except.ok (3, 1)
    ∧ spec_blob_length [0x03] = some (3, 1) :=
  ⟨rfl, rfl, rfl, rfl, rfl, rfl⟩

/-- C2: at the boundary where the maximum candidate row count equals
`2 ^ (16 - tag_bits)` the computed wire width is 2, not the 4 the claim
requires: `is_big_index` compares with strict `>` instead of `>=`. Witnessed
by the TypeDefOrRef family (2 tag bits) with a TypeDef table of exactly
`2 ^ 14` rows. -/
theorem c2_coded_index_width_boundary_bug :
    compute_coded_index_size CodedIndexTag.typeDefOrRef c2_row_count = 2
    ∧ c2_row_count TableKind.typeDef = 2 ^ (16 - 2) :=
  ⟨rfl, rfl⟩

/-- C3: the Strings-heap scan keys every entry by the post-read cumulative
offset (and stores the terminator inside the entry): on the one-byte stream
`[0x00]` the map is `{1 ↦ [0]}`, so looking up offset 0 yields nothing
instead of the empty string; a longer stream shows every key is the offset
one past the entry's end. -/
theorem c3_string_stream_offset_bug :
    string_stream_from 1 [0] = [(1, [0])]
    ∧ string_stream_get (string_stream_from 1 [0]) 0 = none
    ∧ string_stream_from 7 [0, 72, 105, 0, 65, 0, 0]
        = [(1, [0]), (4, [72, 105, 0]), (6, [65, 0]), (7, [0])] :=
  ⟨rfl, rfl, rfl⟩

/-- C4: no cardinality failure exists at read time. `read_single_row` with a
row count of 2 succeeds and returns the first row, and the Module arm of
`Table::read` succeeds whether the declared row count is 0 or 2, always
consuming exactly one row. -/
theorem c4_no_cardinality_check :
    read_single_row 2 [(10 : Nat), 20] = Except.ok (some 10)
    ∧ table_read_module 0 [(7 : Nat)] = Except.ok 7
    ∧ table_read_module 2 [(7 : Nat)] = Except.ok 7 :=
  ⟨rfl, rfl, rfl⟩

/-- C5: decoding a raw coded-index value `v` selects the target table by the
family's spec mapping applied to the low `tag_bits` of `v`, takes
`v >> tag_bits` as the row index, and fails (`none`, a panic in Rust) exactly
when the low bits have no mapping. -/
theorem c5_coded_index_decode (tag : CodedIndexTag) (v : Nat) :
    tag.read v = (spec_tag_to_table tag (v % 2 ^ tag.get_tag_size)).map
      (fun t => CodedIndex.mk t (v >>> tag.get_tag_size)) := by
  unfold CodedIndexTag.read
  rw [get_table_kind_eq_spec]

/-- C6: the classifier accepts a header byte as Tiny exactly when its low two
bits are `0b10`, and `MethodBody::tiny` then yields `code_size` equal to the
upper six bits of the byte and `max_stack = 8` (the body struct has no
locals-signature field at all). The classifier is the spec-modelled dispatch;
the source predicate `is_tiny_format` alone also holds for `0b11` bytes, so
tininess is equivalent to `is_tiny_format` together with the negation of
`is_fat_format`. -/
theorem c6_tiny_header (b : Nat) (hb : b < 256) :
    (classify_method_header b = MethodHeaderKind.tinyHeader ↔ b % 4 = 2)
    ∧ (classify_method_header b = MethodHeaderKind.tinyHeader ↔
        (MethodHeaderType.is_tiny_format b = true ∧ MethodHeaderType.is_fat_format b = false))
    ∧ (MethodBody.tiny b).max_stack = 8
    ∧ (MethodBody.tiny b).code_size = b >>> 2
    ∧ (MethodBody.tiny b).code_size < 64 := by
  have h3 : b &&& 3 = b % 4 := by
    have h := Nat.and_pow_two_sub_one_eq_mod b 2
    norm_num at h
    exact h
  have h2 : b &&& 2 = b % 4 &&& 2 := by
    calc b &&& 2 = b &&& (3 &&& 2) := rfl
    _ = (b &&& 3) &&& 2 := (Nat.and_assoc b 3 2).symm
    _ = b % 4 &&& 2 := by rw [h3]
  obtain ⟨m, hm, he⟩ : ∃ m, m < 4 ∧ b % 4 = m := ⟨b % 4, by omega, rfl⟩
  refine ⟨?_, ?_, rfl, rfl, ?_⟩
  · simp only [classify_method_header, he]
    interval_cases m <;> simp
  · simp only [classify_method_header, MethodHeaderType.is_tiny_format,
      MethodHeaderType.is_fat_format, MethodHeaderType.check_flag, h2, h3, he]
    interval_cases m <;> simp
  · show b >>> 2 < 64
    rw [Nat.shiftRight_eq_div_pow]
    omega

/-- Witness for C6 at the concrete header byte `0x0A` (low bits `0b10`). -/
theorem c6_tiny_header_witness : (MethodBody.tiny 0x0A).code_size < 64 :=
  (c6_tiny_header 0x0A (by norm_num)).2.2.2.2

/-- C7: the generated row getter returns `none` exactly for ordinal 0 or an
ordinal above the row count, and for an in-range ordinal returns the element
at the 1-based position (the lookup is `rows.get?` at `index - 1`, which is
`some`). -/
theorem c7_row_getter {α : Type} (rows : List α) (index : Nat) :
    (define_getter rows index = none ↔ (index = 0 ∨ rows.length < index))
    ∧ (1 ≤ index → index ≤ rows.length →
        define_getter rows index = rows.get? (index - 1)
        ∧ (rows.get? (index - 1)).isSome = true) := by
  unfold define_getter
  rcases Nat.eq_zero_or_pos index with h0 | hpos
  · subst h0
    simp
  · have hne : index ≠ 0 := Nat.pos_iff_ne_zero.mp hpos
    rw [if_neg hne]
    refine ⟨?_, ?_⟩
    · rw [List.get?_eq_none]
      omega
    · intro h1 h2
      have hlt : index - 1 < rows.length := by omega
      refine ⟨rfl, ?_⟩
      rw [List.get?_eq_get hlt]
      rfl

/-- Witness for C7 on a concrete two-row table at ordinal 2. -/
theorem c7_row_getter_witness : define_getter [(3 : Nat), 5] 2 = some 5 := by
  have h := (c7_row_getter [(3 : Nat), 5] 2).2 (by norm_num) (by norm_num)
  exact h.1.trans rfl

/-- Counterexample for C8 as stated: the section ending at `2 ^ 32 + 1`
mathematically maps `rva = 2 ^ 32 - 1` (so the claim demands
`pointer_to_raw_data + (rva - virtual_address)`), but `get_address` fails
because `virtual_address + virtual_size` overflows `u32` (a panic in a debug
build; a release build wraps and reports the RVA as unmapped). -/
theorem c8_rva_overflow_counterexample :
    (c8_section.virtual_address ≤ 2 ^ 32 - 1
      ∧ 2 ^ 32 - 1 < c8_section.virtual_address + c8_section.virtual_size)
    ∧ get_address [c8_section] (2 ^ 32 - 1) = Except.error PeError.addOverflowed
    ∧ get_address [c8_section] (2 ^ 32 - 1)
        ≠ Except.ok (c8_section.pointer_to_raw_data + ((2 ^ 32 - 1) - c8_section.virtual_address)) := by
  refine ⟨by decide, rfl, ?_⟩
  intro h
  exact Except.noConfusion h

/-- C8 (amended): when no section's `virtual_address + virtual_size`
overflows `u32`, resolving an RVA returns
`pointer_to_raw_data + (rva - virtual_address)` of the first section with
`virtual_address <= rva < virtual_address + virtual_size`, and fails with
the RVA-unmapped panic exactly when no section matches. -/
theorem c8_rva_to_file_offset (sections : List SectionHeader) (rva : Nat)
    (hwf : ∀ s ∈ sections, s.virtual_address + s.virtual_size < 2 ^ 32) :
    get_address sections rva =
      match sections.find? (section_matches rva) with
      | some s => Except.ok (s.pointer_to_raw_data + (rva - s.virtual_address))
      | none => Except.error PeError.rvaNotFound := by
  induction sections with
  | nil => rfl
  | cons s rest ih =>
    have hs := hwf s (List.mem_cons_self s rest)
    have ihr := ih (fun t ht => hwf t (List.mem_cons_of_mem s ht))
    have hnov : ¬ 2 ^ 32 ≤ s.virtual_address + s.virtual_size := Nat.not_le.2 hs
    rw [List.find?_cons]
    by_cases h1 : s.virtual_address ≤ rva
    · by_cases h2 : rva < s.virtual_address + s.virtual_size
      · have hm : section_matches rva s = true := by
          simp [section_matches, h1, h2]
        rw [hm]
        simp [get_address, h1, h2, hnov]
        omega
      · have hm : section_matches rva s = false := by
          simp [section_matches, h2]
        rw [hm]
        simp only [get_address, if_pos h1, if_neg hnov, if_neg h2]
        exact ihr
    · have hm : section_matches rva s = false := by
        simp [section_matches, h1]
      rw [hm]
      simp only [get_address, if_neg h1]
      exact ihr

/-- Witness for C8 (amended) on a concrete one-section list. -/
theorem c8_rva_witness :
    get_address [SectionHeader.mk 0x1000 0x2000 0x400] 0x2010 = Except.ok 0x410 := by
  have h := c8_rva_to_file_offset [SectionHeader.mk 0x1000 0x2000 0x400] 0x2010 (by decide)
  exact h.trans rfl

/-- C9: a stream-header name whose length including the terminator is already
a multiple of 4 is followed by four spurious padding reads: the header with
name `#US` consumes 16 bytes instead of the specified `8 + 4 = 12` (the four
bytes after the terminator are swallowed as padding), while a name such as
`#~` whose padded length is not already a multiple of 4 consumes the correct
12 bytes. -/
theorem c9_stream_header_padding_bug :
    stream_header_from
        [0x01, 0x00, 0x00, 0x00, 0x10, 0x00, 0x00, 0x00,
         0x23, 0x55, 0x53, 0x00, 0xAA, 0xBB, 0xCC, 0xDD]
      = Except.ok (StreamHeader.mk 1 16 [0x23, 0x55, 0x53], 16)
    ∧ stream_header_from
        [0x01, 0x00, 0x00, 0x00, 0x10, 0x00, 0x00, 0x00, 0x23, 0x7E, 0x00, 0x00]
      = Except.ok (StreamHeader.mk 1 16 [0x23, 0x7E], 12) :=
  ⟨rfl, rfl⟩

/-- C10: for every 32-bit raw value accepted by `from_raw` (high byte `0x70`
or a valid table tag), `to_raw` inverts `from_raw`; the token is a UserString
exactly when the high byte is `0x70`, and then its index is the low 24 bits
of the raw value. -/
theorem c10_metadata_token_roundtrip (raw : Nat) (hraw : raw < 2 ^ 32) (tok : MetadataToken)
    (htok : MetadataToken.from_raw raw = some tok) :
    tok.to_raw = raw
    ∧ ((∃ i, tok = MetadataToken.userString i) ↔ raw >>> 24 = 0x70)
    ∧ (raw >>> 24 = 0x70 → tok = MetadataToken.userString (raw % 2 ^ 24)) := by
  have hhi : (raw >>> 24) % 2 ^ 8 = raw >>> 24 := by
    rw [Nat.shiftRight_eq_div_pow]
    omega
  have hidx : raw &&& 0x00FFFFFF = raw % 2 ^ 24 := by
    have h := Nat.and_pow_two_sub_one_eq_mod raw 24
    norm_num at h ⊢
    exact h
  unfold MetadataToken.from_raw at htok
  simp only [hhi, hidx] at htok
  by_cases h70 : raw >>> 24 = 0x70
  · rw [if_pos h70] at htok
    injection htok with htok2
    subst htok2
    refine ⟨?_, ⟨fun _ => h70, fun _ => ⟨_, rfl⟩⟩, fun _ => rfl⟩
    show (0x70 <<< 24) ||| (raw % 2 ^ 24) = raw
    rw [← h70]
    exact split24 raw
  · rw [if_neg h70] at htok
    cases hk : TableKind.from_u32 (raw >>> 24) with
    | none =>
      rw [hk] at htok
      exact Option.noConfusion htok
    | some k =>
      rw [hk] at htok
      injection htok with htok2
      subst htok2
      refine ⟨?_, ⟨?_, fun h => absurd h h70⟩, fun h => absurd h h70⟩
      · show (k.to_u32 <<< 24) ||| (raw % 2 ^ 24) = raw
        rw [from_u32_to_u32 _ _ hk]
        exact split24 raw
      · rintro ⟨i, hi⟩
        exact MetadataToken.noConfusion hi

/-- Witness for C10 at the concrete UserString token `0x70000012`. -/
theorem c10_metadata_token_witness :
    MetadataToken.to_raw (MetadataToken.userString 0x12) = 0x70000012 :=
  (c10_metadata_token_roundtrip 0x70000012 (by norm_num)
    (MetadataToken.userString 0x12) rfl).1
